import Mathlib

/-!
Verification of the IPL boot/handoff core of hadbadge2019_fpgasoc
(soc/ipl/main.c): the packed-framebuffer pixel codec (lcd_pset), the
cache-flush register protocol (cache_flush), the application handoff
sequence in main, and the diagnostic loop.

Machine integers are modelled as Nat (with explicit mod 2^32 where the C
code computes in uint32_t) and as Int where the C code uses signed types
(the UG_S16 coordinates). RAM beyond the framebuffer allocation is part
of the model: the framebuffer memory is a total function from byte
offsets to byte values, so an out-of-range store is visible as a store
at an offset at or beyond the allocation size rather than being dropped.
-/

/-- Size in bytes of the framebuffer allocated in main
(main.c:66, calloc of 320*512/2 bytes). -/
def fbSize : Nat := 320 * 512 / 2

/-- Framebuffer state: whether lcdfb is non-NULL, and the byte memory
reachable from the lcdfb pointer (indexed by byte offset from lcdfb). -/
structure FBState where
  allocated : Bool
  mem : Nat → Nat

/-- The 4-bit nibble lcd_pset computes from a color value c
(main.c:41-47): n starts at 0, then each tested bit of c ORs a
constant into n exactly as the C sequence of n|= statements does. -/
def colorNibble (c : Nat) : Nat :=
  let n := 0
  let n := if c &&& (1 <<< 7) ≠ 0 then n ||| 4 else n
  let n := if c &&& (1 <<< 15) ≠ 0 then n ||| 2 else n
  let n := if c &&& (1 <<< 23) ≠ 0 then n ||| 1 else n
  let n := if c &&& (1 <<< 6) ≠ 0 then n ||| 8 else n
  let n := if c &&& (1 <<< 14) ≠ 0 then n ||| 8 else n
  let n := if c &&& (1 <<< 22) ≠ 0 then n ||| 8 else n
  n

/-- Model of lcd_pset (main.c:37-55). Guards: NULL framebuffer, x outside
[0,480], y outside [0,320] return with no write. Otherwise the byte at
offset (x+y*512)/2 is read, one nibble is replaced by colorNibble c (high
nibble when x is odd, low nibble when x is even), and the byte is stored
back. After the guards x and y are nonnegative, so the C int arithmetic
coincides with Nat arithmetic on x.toNat and y.toNat. -/
def lcd_pset (x y : Int) (c : Nat) (s : FBState) : FBState :=
  if s.allocated = false then s
  else if x < 0 ∨ x > 480 then s
  else if y < 0 ∨ y > 320 then s
  else
    let n := colorNibble c
    let idx := (x.toNat + y.toNat * 512) / 2
    let o := s.mem idx
    let o2 := if x.toNat &&& 1 = 1 then (o &&& 0xf) ||| (n <<< 4)
              else (o &&& 0xf0) ||| n
    ⟨s.allocated, fun j => if j = idx then o2 else s.mem j⟩

/-! ### Helper lemmas about the codec -/

theorem and_shift_ne_zero_iff (c k : Nat) :
    (c &&& (1 <<< k) ≠ 0) ↔ c.testBit k = true := by
  rw [Nat.shiftLeft_eq, Nat.one_mul, Nat.and_two_pow]
  cases h : c.testBit k <;> simp

theorem colorNibble_lt_16 (c : Nat) : colorNibble c < 16 := by
  unfold colorNibble
  split <;> split <;> split <;> split <;> split <;> split <;> decide

theorem testBit_false_of_lt (n i k : Nat) (hn : n < 2 ^ k) (hi : k ≤ i) :
    n.testBit i = false := by
  apply Nat.testBit_lt_two_pow
  exact Nat.lt_of_lt_of_le hn (Nat.pow_le_pow_right (by decide) hi)

theorem nibble_or_low (o n : Nat) (hn : n < 16) :
    ((o &&& 0xf0) ||| n) &&& 0xf = n := by
  apply Nat.eq_of_testBit_eq
  intro i
  simp only [Nat.testBit_and, Nat.testBit_or]
  by_cases hi : i < 4
  · have h240 : Nat.testBit 0xf0 i = false := by interval_cases i <;> decide
    have h15 : Nat.testBit 0xf i = true := by interval_cases i <;> decide
    simp [h240, h15]
  · have hnf : n.testBit i = false := testBit_false_of_lt n i 4 hn (by omega)
    have h15 : Nat.testBit 0xf i = false := testBit_false_of_lt 0xf i 4 (by decide) (by omega)
    simp [h15, hnf]

theorem nibble_or_low_high (o n : Nat) (hn : n < 16) :
    (((o &&& 0xf0) ||| n) >>> 4) &&& 0xf = (o >>> 4) &&& 0xf := by
  apply Nat.eq_of_testBit_eq
  intro i
  simp only [Nat.testBit_and, Nat.testBit_or, Nat.testBit_shiftRight]
  have hnf : n.testBit (4 + i) = false := testBit_false_of_lt n (4 + i) 4 hn (by omega)
  by_cases hi : i < 4
  · have h240 : Nat.testBit 0xf0 (4 + i) = true := by interval_cases i <;> decide
    simp [h240, hnf]
  · have h15 : Nat.testBit 0xf i = false := testBit_false_of_lt 0xf i 4 (by decide) (by omega)
    simp [h15]

theorem nibble_or_high_low (o n : Nat) :
    ((o &&& 0xf) ||| (n <<< 4)) &&& 0xf = o &&& 0xf := by
  apply Nat.eq_of_testBit_eq
  intro i
  simp only [Nat.testBit_and, Nat.testBit_or, Nat.testBit_shiftLeft]
  by_cases hi : i < 4
  · have hge : decide (i ≥ 4) = false := by
      simp only [decide_eq_false_iff_not]
      omega
    simp [hge]
  · have h15 : Nat.testBit 0xf i = false := testBit_false_of_lt 0xf i 4 (by decide) (by omega)
    simp [h15]

theorem nibble_or_high (o n : Nat) (hn : n < 16) :
    (((o &&& 0xf) ||| (n <<< 4)) >>> 4) &&& 0xf = n := by
  apply Nat.eq_of_testBit_eq
  intro i
  simp only [Nat.testBit_and, Nat.testBit_or, Nat.testBit_shiftRight, Nat.testBit_shiftLeft]
  by_cases hi : i < 4
  · have h15lo : Nat.testBit 0xf (4 + i) = false := by interval_cases i <;> decide
    have h15hi : Nat.testBit 0xf i = true := by interval_cases i <;> decide
    have hge : decide (4 + i ≥ 4) = true := by simp
    simp [h15lo, h15hi, hge, Nat.add_sub_cancel_left]
  · have h15 : Nat.testBit 0xf i = false := testBit_false_of_lt 0xf i 4 (by decide) (by omega)
    have hnf : n.testBit i = false := testBit_false_of_lt n i 4 hn (by omega)
    simp [h15, hnf]

theorem nibble_rmw_low (o n : Nat) (hn : n < 16) :
    (((o &&& 0xf0) ||| n) &&& 0xf0) = o &&& 0xf0 := by
  apply Nat.eq_of_testBit_eq
  intro i
  simp only [Nat.testBit_and, Nat.testBit_or]
  by_cases hi : i < 4
  · have h240 : Nat.testBit 0xf0 i = false := by interval_cases i <;> decide
    simp [h240]
  · have hnf : n.testBit i = false := testBit_false_of_lt n i 4 hn (by omega)
    simp [hnf, Bool.and_or_distrib_right, Bool.and_assoc]

/-! ### Structural lemmas for lcd_pset -/

theorem lcd_pset_noop (x y : Int) (c : Nat) (s : FBState)
    (h : s.allocated = false ∨ x < 0 ∨ x > 480 ∨ y < 0 ∨ y > 320) :
    lcd_pset x y c s = s := by
  unfold lcd_pset
  split
  · rfl
  · split
    · rfl
    · split
      · rfl
      · rename_i h1 h2 h3
        exfalso
        rcases h with h | h | h | h | h <;> simp_all

theorem lcd_pset_write (x y : Int) (c : Nat) (s : FBState)
    (hx0 : 0 ≤ x) (hx1 : x ≤ 480) (hy0 : 0 ≤ y) (hy1 : y ≤ 320)
    (halloc : s.allocated = true) :
    lcd_pset x y c s =
      ⟨true, fun j => if j = (x.toNat + y.toNat * 512) / 2
        then (if x.toNat &&& 1 = 1
              then (s.mem ((x.toNat + y.toNat * 512) / 2) &&& 0xf) ||| (colorNibble c <<< 4)
              else (s.mem ((x.toNat + y.toNat * 512) / 2) &&& 0xf0) ||| colorNibble c)
        else s.mem j⟩ := by
  unfold lcd_pset
  rw [if_neg (by simp [halloc]), if_neg (by omega), if_neg (by omega)]
  simp only [halloc]

/-- Claim C3: for every color value c, the 4-bit nibble computed by the
pixel codec has bit 2 set iff bit 7 of c (the top-used bit of the channel
the code routes to nibble bit 2) is set, bit 1 set iff bit 15 of c is
set, bit 0 set iff bit 23 of c is set, and bit 3 set iff at least one of
the three secondary channel bits 6, 14, 22 of c is set. -/
theorem C3_colorNibble_bits (c : Nat) :
    ((colorNibble c).testBit 2 = c.testBit 7) ∧
    ((colorNibble c).testBit 1 = c.testBit 15) ∧
    ((colorNibble c).testBit 0 = c.testBit 23) ∧
    ((colorNibble c).testBit 3 = (c.testBit 6 || c.testBit 14 || c.testBit 22)) := by
  unfold colorNibble
  simp only [and_shift_ne_zero_iff]
  cases h7 : c.testBit 7 <;> cases h15 : c.testBit 15 <;> cases h23 : c.testBit 23 <;>
    cases h6 : c.testBit 6 <;> cases h14 : c.testBit 14 <;> cases h22 : c.testBit 22 <;>
      simp_all <;> decide

/-- Claim C6: when the framebuffer is unallocated or (x, y) is outside
[0,480] x [0,320], set_pixel returns without performing any write: the
whole framebuffer state is unchanged. -/
theorem C6_set_pixel_noop (x y : Int) (c : Nat) (s : FBState)
    (h : s.allocated = false ∨ x < 0 ∨ x > 480 ∨ y < 0 ∨ y > 320) :
    lcd_pset x y c s = s :=
  lcd_pset_noop x y c s h

/-- Witness for C6 at x = -1, y = 0, c = 0 and an allocated all-zero
framebuffer. -/
theorem C6_set_pixel_noop_witness :
    ((FBState.mk true (fun _ => 0)).allocated = false ∨ (-1 : Int) < 0 ∨ (-1 : Int) > 480 ∨
      (0 : Int) < 0 ∨ (0 : Int) > 320) ∧
    lcd_pset (-1) 0 0 (FBState.mk true (fun _ => 0)) = FBState.mk true (fun _ => 0) :=
  ⟨by norm_num, C6_set_pixel_noop (-1) 0 0 (FBState.mk true (fun _ => 0)) (by norm_num)⟩

/-- Claim C10: set_pixel is idempotent: for every x, y, color c and
framebuffer state, calling it twice with the same arguments leaves the
state exactly as one call does. -/
theorem C10_set_pixel_idempotent (x y : Int) (c : Nat) (s : FBState) :
    lcd_pset x y c (lcd_pset x y c s) = lcd_pset x y c s := by
  by_cases hg : s.allocated = false ∨ x < 0 ∨ x > 480 ∨ y < 0 ∨ y > 320
  · rw [lcd_pset_noop x y c s hg, lcd_pset_noop x y c s hg]
  · push_neg at hg
    obtain ⟨ha, hx0, hx1, hy0, hy1⟩ := hg
    have halloc : s.allocated = true := by
      cases hA : s.allocated
      · exact absurd hA ha
      · rfl
    rw [lcd_pset_write x y c s hx0 hx1 hy0 hy1 halloc]
    rw [lcd_pset_write x y c _ hx0 hx1 hy0 hy1 rfl]
    simp only [FBState.mk.injEq, true_and]
    funext j
    by_cases hj : j = (x.toNat + y.toNat * 512) / 2
    · simp only [if_pos hj, if_pos rfl, if_true]
      by_cases hp : x.toNat &&& 1 = 1
      · simp only [if_pos hp, if_true]
        rw [nibble_or_high_low]
      · simp only [if_neg hp, if_true]
        rw [nibble_rmw_low _ _ (colorNibble_lt_16 c)]
    · simp only [if_neg hj]

/-- Claim C2: for in-range coordinates and an allocated framebuffer,
set_pixel touches only the byte at offset (x+y*512)/2: when x is even it
replaces the low nibble with the color nibble and preserves the high
nibble, when x is odd it replaces the high nibble and preserves the low
nibble, every other byte is unchanged, and writing pixels (x,y) then
(x+1,y) with x even leaves the two color nibbles independently readable
in the shared byte. -/
theorem C2_set_pixel_exact_byte (x y : Int) (c : Nat) (s : FBState)
    (hx0 : 0 ≤ x) (hx1 : x ≤ 480) (hy0 : 0 ≤ y) (hy1 : y ≤ 320)
    (halloc : s.allocated = true) :
    (lcd_pset x y c s).allocated = s.allocated ∧
    (∀ j, j ≠ (x.toNat + y.toNat * 512) / 2 → (lcd_pset x y c s).mem j = s.mem j) ∧
    (x % 2 = 0 →
      (lcd_pset x y c s).mem ((x.toNat + y.toNat * 512) / 2) &&& 0xf = colorNibble c ∧
      ((lcd_pset x y c s).mem ((x.toNat + y.toNat * 512) / 2) >>> 4) &&& 0xf
        = (s.mem ((x.toNat + y.toNat * 512) / 2) >>> 4) &&& 0xf) ∧
    (x % 2 = 1 →
      ((lcd_pset x y c s).mem ((x.toNat + y.toNat * 512) / 2) >>> 4) &&& 0xf = colorNibble c ∧
      (lcd_pset x y c s).mem ((x.toNat + y.toNat * 512) / 2) &&& 0xf
        = s.mem ((x.toNat + y.toNat * 512) / 2) &&& 0xf) ∧
    (x % 2 = 0 → x + 1 ≤ 480 → ∀ c2,
      (lcd_pset (x + 1) y c2 (lcd_pset x y c s)).mem ((x.toNat + y.toNat * 512) / 2) &&& 0xf
        = colorNibble c ∧
      ((lcd_pset (x + 1) y c2 (lcd_pset x y c s)).mem ((x.toNat + y.toNat * 512) / 2) >>> 4) &&& 0xf
        = colorNibble c2) := by
  have hw := lcd_pset_write x y c s hx0 hx1 hy0 hy1 halloc
  refine ⟨?_, ?_, ?_, ?_, ?_⟩
  · rw [hw, halloc]
  · intro j hj
    rw [hw]
    simp only [if_neg hj]
  · intro hpar
    have hp : ¬ (x.toNat &&& 1 = 1) := by
      rw [Nat.and_one_is_mod]
      omega
    rw [hw]
    simp only [if_pos rfl, if_neg hp]
    exact ⟨nibble_or_low _ _ (colorNibble_lt_16 c), nibble_or_low_high _ _ (colorNibble_lt_16 c)⟩
  · intro hpar
    have hp : x.toNat &&& 1 = 1 := by
      rw [Nat.and_one_is_mod]
      omega
    rw [hw]
    simp only [if_pos rfl, if_pos hp]
    exact ⟨nibble_or_high _ _ (colorNibble_lt_16 c), nibble_or_high_low _ _⟩
  · intro hpar hx2 c2
    have heq : ((x + 1).toNat + y.toNat * 512) / 2 = (x.toNat + y.toNat * 512) / 2 := by omega
    have halloc2 : (lcd_pset x y c s).allocated = true := by rw [hw]
    have hw2 := lcd_pset_write (x + 1) y c2 (lcd_pset x y c s) (by omega) hx2 hy0 hy1 halloc2
    rw [hw2, heq]
    have hp2 : (x + 1).toNat &&& 1 = 1 := by
      rw [Nat.and_one_is_mod]
      omega
    have hmem : (lcd_pset x y c s).mem ((x.toNat + y.toNat * 512) / 2)
        = (s.mem ((x.toNat + y.toNat * 512) / 2) &&& 0xf0) ||| colorNibble c := by
      have hp : ¬ (x.toNat &&& 1 = 1) := by
        rw [Nat.and_one_is_mod]
        omega
      rw [hw]
      simp only [if_pos rfl, if_neg hp, if_true]
    simp only [if_pos rfl, if_pos hp2, hmem, if_true]
    constructor
    · rw [nibble_or_high_low]
      exact nibble_or_low _ _ (colorNibble_lt_16 c)
    · exact nibble_or_high _ _ (colorNibble_lt_16 c2)

/-- Witness for C2 at x = 2, y = 3, c = 7 and an allocated all-zero
framebuffer. -/
theorem C2_set_pixel_exact_byte_witness :
    ((0 : Int) ≤ 2 ∧ (2 : Int) ≤ 480 ∧ (0 : Int) ≤ 3 ∧ (3 : Int) ≤ 320 ∧
      (FBState.mk true fun _ => 0).allocated = true) ∧
    ((lcd_pset 2 3 7 (FBState.mk true fun _ => 0)).allocated
        = (FBState.mk true fun _ => 0).allocated ∧
    (∀ j, j ≠ ((2 : Int).toNat + (3 : Int).toNat * 512) / 2 →
      (lcd_pset 2 3 7 (FBState.mk true fun _ => 0)).mem j
        = (FBState.mk true fun _ => 0).mem j) ∧
    ((2 : Int) % 2 = 0 →
      (lcd_pset 2 3 7 (FBState.mk true fun _ => 0)).mem
          (((2 : Int).toNat + (3 : Int).toNat * 512) / 2) &&& 0xf = colorNibble 7 ∧
      ((lcd_pset 2 3 7 (FBState.mk true fun _ => 0)).mem
          (((2 : Int).toNat + (3 : Int).toNat * 512) / 2) >>> 4) &&& 0xf
        = ((FBState.mk true fun _ => 0).mem
          (((2 : Int).toNat + (3 : Int).toNat * 512) / 2) >>> 4) &&& 0xf) ∧
    ((2 : Int) % 2 = 1 →
      ((lcd_pset 2 3 7 (FBState.mk true fun _ => 0)).mem
          (((2 : Int).toNat + (3 : Int).toNat * 512) / 2) >>> 4) &&& 0xf = colorNibble 7 ∧
      (lcd_pset 2 3 7 (FBState.mk true fun _ => 0)).mem
          (((2 : Int).toNat + (3 : Int).toNat * 512) / 2) &&& 0xf
        = (FBState.mk true fun _ => 0).mem
          (((2 : Int).toNat + (3 : Int).toNat * 512) / 2) &&& 0xf) ∧
    ((2 : Int) % 2 = 0 → (2 : Int) + 1 ≤ 480 → ∀ c2,
      (lcd_pset ((2 : Int) + 1) 3 c2 (lcd_pset 2 3 7 (FBState.mk true fun _ => 0))).mem
          (((2 : Int).toNat + (3 : Int).toNat * 512) / 2) &&& 0xf = colorNibble 7 ∧
      ((lcd_pset ((2 : Int) + 1) 3 c2 (lcd_pset 2 3 7 (FBState.mk true fun _ => 0))).mem
          (((2 : Int).toNat + (3 : Int).toNat * 512) / 2) >>> 4) &&& 0xf = colorNibble c2)) :=
  ⟨⟨by norm_num, by norm_num, by norm_num, by norm_num, rfl⟩,
    C2_set_pixel_exact_byte 2 3 7 (FBState.mk true fun _ => 0)
      (by norm_num) (by norm_num) (by norm_num) (by norm_num) rfl⟩

/-- Claim C4: for every x in [0,480] and any color, with an allocated
framebuffer a call at y = 320 passes all three guards of lcd_pset, yet
the computed byte offset (x + 320*512)/2 is at least fbSize = 320*512/2
(the size of the buffer main allocates), so the read-modify-write store
lands at or beyond the end of the allocation. -/
theorem C4_y320_overflow (x : Int) (c : Nat) (s : FBState)
    (hx0 : 0 ≤ x) (hx1 : x ≤ 480) (halloc : s.allocated = true) :
    (¬ s.allocated = false) ∧ (¬ (x < 0 ∨ x > 480)) ∧
    (¬ ((320 : Int) < 0 ∨ (320 : Int) > 320)) ∧
    fbSize ≤ (x.toNat + (320 : Int).toNat * 512) / 2 ∧
    (lcd_pset x 320 c s).mem ((x.toNat + (320 : Int).toNat * 512) / 2) =
      (if x.toNat &&& 1 = 1
       then (s.mem ((x.toNat + (320 : Int).toNat * 512) / 2) &&& 0xf)
              ||| (colorNibble c <<< 4)
       else (s.mem ((x.toNat + (320 : Int).toNat * 512) / 2) &&& 0xf0)
              ||| colorNibble c) := by
  refine ⟨by simp [halloc], by omega, by omega, ?_, ?_⟩
  · unfold fbSize
    omega
  · rw [lcd_pset_write x 320 c s hx0 hx1 (by norm_num) (by norm_num) halloc]
    simp only [if_pos rfl, if_true]

/-- Witness for C4 at x = 0, c = 0 and an allocated all-zero
framebuffer. -/
theorem C4_y320_overflow_witness :
    ((0 : Int) ≤ 0 ∧ (0 : Int) ≤ 480 ∧ (FBState.mk true fun _ => 0).allocated = true) ∧
    ((¬ (FBState.mk true fun _ => 0).allocated = false) ∧
      (¬ ((0 : Int) < 0 ∨ (0 : Int) > 480)) ∧
      (¬ ((320 : Int) < 0 ∨ (320 : Int) > 320)) ∧
      fbSize ≤ ((0 : Int).toNat + (320 : Int).toNat * 512) / 2 ∧
      (lcd_pset 0 320 0 (FBState.mk true fun _ => 0)).mem
          (((0 : Int).toNat + (320 : Int).toNat * 512) / 2) =
        (if (0 : Int).toNat &&& 1 = 1
         then ((FBState.mk true fun _ => 0).mem
                (((0 : Int).toNat + (320 : Int).toNat * 512) / 2) &&& 0xf)
                ||| (colorNibble 0 <<< 4)
         else ((FBState.mk true fun _ => 0).mem
                (((0 : Int).toNat + (320 : Int).toNat * 512) / 2) &&& 0xf0)
                ||| colorNibble 0)) :=
  ⟨⟨by norm_num, by norm_num, rfl⟩,
    C4_y320_overflow 0 0 (FBState.mk true fun _ => 0) (by norm_num) (by norm_num) rfl⟩

/-! ### Cache flush register protocol -/

/-- A single 32-bit store to a memory-mapped location: the address the
store targets and the 32-bit value written. -/
structure Store32 where
  addr : Nat
  value : Nat
deriving DecidableEq

/-- Model of cache_flush (main.c:31-34), parameterized by the two
platform constants MACH_RAM_START and MACH_FLUSH_REGION from
mach_defines.h. The C body computes in uint32_t, so every arithmetic
step is taken mod 2^32; subtraction of ramStart is the uint32 wrapping
subtraction, encoded as addition of (2^32 - ramStart mod 2^32) followed
by mod 2^32. The function performs exactly one store: the target is
(addr_start & ~3) - MACH_RAM_START + MACH_FLUSH_REGION and the value is
addr_end - MACH_RAM_START, and 0xFFFFFFFC is the uint32 value of ~3. -/
def cache_flush (ramStart flushRegion addrStart addrEnd : Nat) : List Store32 :=
  [⟨((addrStart % 2 ^ 32 &&& 0xFFFFFFFC) + (2 ^ 32 - ramStart % 2 ^ 32)
      + flushRegion % 2 ^ 32) % 2 ^ 32,
    (addrEnd % 2 ^ 32 + (2 ^ 32 - ramStart % 2 ^ 32)) % 2 ^ 32⟩]

theorem and_mask_not_three (a : Nat) (ha : a < 2 ^ 32) :
    a &&& 0xFFFFFFFC = 4 * (a / 4) := by
  have h4 : 4 * (a / 4) = (a >>> 2) <<< 2 := by
    rw [Nat.shiftRight_eq_div_pow, Nat.shiftLeft_eq]
    omega
  have hmask : (0xFFFFFFFC : Nat) = (2 ^ 30 - 1) <<< 2 := by decide
  rw [h4, hmask]
  apply Nat.eq_of_testBit_eq
  intro i
  simp only [Nat.testBit_and, Nat.testBit_shiftLeft, Nat.testBit_shiftRight,
    Nat.testBit_two_pow_sub_one]
  by_cases hi2 : 2 ≤ i
  · by_cases hi32 : i < 32
    · have h1 : decide (i ≥ 2) = true := by simpa using hi2
      have h2 : decide (i - 2 < 30) = true := by
        simp only [decide_eq_true_eq]
        omega
      simp [h1, h2, Nat.add_sub_cancel' hi2]
    · have haf : a.testBit i = false :=
        testBit_false_of_lt a i 32 ha (by omega)
      have haf2 : a.testBit (2 + (i - 2)) = false := by
        have : 2 + (i - 2) = i := by omega
        rw [this]
        exact haf
      simp [haf, haf2]
  · have h1 : decide (i ≥ 2) = false := by
      simp only [decide_eq_false_iff_not]
      omega
    simp [h1]

/-- Claim C8: for every region, cache_flush performs exactly one 32-bit
store; under the no-wrap side conditions that hold for RAM addresses
above the RAM base, the stored value is the end address minus the RAM
base, and the target is the start address masked to a 4-byte boundary
(4 * (start / 4)), minus the RAM base, plus the flush-control window
offset. -/
theorem C8_cache_flush_store (ramStart flushRegion addrStart addrEnd : Nat)
    (hs : addrStart < 2 ^ 32) (he : addrEnd < 2 ^ 32)
    (hr : ramStart < 2 ^ 32) (hf : flushRegion < 2 ^ 32)
    (hre : ramStart ≤ addrEnd)
    (hrs : ramStart ≤ 4 * (addrStart / 4))
    (hnw : 4 * (addrStart / 4) - ramStart + flushRegion < 2 ^ 32) :
    cache_flush ramStart flushRegion addrStart addrEnd =
      [⟨4 * (addrStart / 4) - ramStart + flushRegion, addrEnd - ramStart⟩] := by
  unfold cache_flush
  have h1 : addrStart % 2 ^ 32 = addrStart := Nat.mod_eq_of_lt hs
  have h2 : addrEnd % 2 ^ 32 = addrEnd := Nat.mod_eq_of_lt he
  have h3 : ramStart % 2 ^ 32 = ramStart := Nat.mod_eq_of_lt hr
  have h4 : flushRegion % 2 ^ 32 = flushRegion := Nat.mod_eq_of_lt hf
  rw [h1, h2, h3, h4, and_mask_not_three addrStart hs]
  have hval : (addrEnd + (2 ^ 32 - ramStart)) % 2 ^ 32 = addrEnd - ramStart := by omega
  have haddr : (4 * (addrStart / 4) + (2 ^ 32 - ramStart) + flushRegion) % 2 ^ 32
      = 4 * (addrStart / 4) - ramStart + flushRegion := by omega
  rw [hval, haddr]

/-- Witness for C8 with RAM base 16, flush window 256, region start 23
and end 40: the single store targets 4*(23/4) - 16 + 256 = 260 with
value 40 - 16 = 24. -/
theorem C8_cache_flush_store_witness :
    (23 < 2 ^ 32 ∧ 40 < 2 ^ 32 ∧ 16 < 2 ^ 32 ∧ 256 < 2 ^ 32 ∧ 16 ≤ 40 ∧
      16 ≤ 4 * (23 / 4) ∧ 4 * (23 / 4) - 16 + 256 < 2 ^ 32) ∧
    cache_flush 16 256 23 40 = [⟨4 * (23 / 4) - 16 + 256, 40 - 16⟩] :=
  ⟨⟨by norm_num, by norm_num, by norm_num, by norm_num, by norm_num, by norm_num, by norm_num⟩,
    C8_cache_flush_store 16 256 23 40 (by norm_num) (by norm_num) (by norm_num)
      (by norm_num) (by norm_num) (by norm_num) (by norm_num)⟩

/-! ### Event traces of the handoff (main.c:85-91) and the diagnostic
loop (main.c:101-111) -/

/-- Observable calls main makes, in program order: console output
(printf), the heap-start configuration (sbrk_app_set_heap_start), the
jump to a loaded entry point (entry address, argc, and whether argv is
NULL), the red foreground selection (UG_SetForecolor(C_RED)), text
rendering (UG_PutString at a position), a cache-flush request over a
byte region [start, stop) relative to the RAM the region lives in, and
the two transport polls usb_poll and tud_task. -/
inductive Event where
  | log : Event
  | setHeapStart : Nat → Event
  | callEntry : Nat → Nat → Bool → Event
  | setForecolorRed : Event
  | putString : Int → Int → String → Event
  | flushReq : Nat → Nat → Event
  | usbPoll : Event
  | tudTask : Event
deriving DecidableEq

def isCallEntry : Event → Bool
  | Event.callEntry _ _ _ => true
  | _ => false

def isSetHeapStart : Event → Bool
  | Event.setHeapStart _ => true
  | _ => false

def isFlushReq : Event → Bool
  | Event.flushReq _ _ => true
  | _ => false

def isPutString : Event → Bool
  | Event.putString _ _ _ => true
  | _ => false

def isService : Event → Bool
  | Event.usbPoll => true
  | Event.tudTask => true
  | _ => false

/-- The calls main.c:87-91 makes after load_new_app returns entry point
la and highest used address m: printf, sbrk_app_set_heap_start(m),
printf("Go!"), then the jump maincall(0, NULL). -/
def handoffEvents (la m : Nat) : List Event :=
  [Event.log, Event.setHeapStart m, Event.log, Event.callEntry la 0 true]

/-- The calls of the inner transport-service loop of main.c:107-110:
for each of n iterations, usb_poll() then tud_task(). -/
def pollEvents : Nat → List Event
  | 0 => []
  | Nat.succ k => Event.usbPoll :: Event.tudTask :: pollEvents k

/-- One outer iteration of the diagnostic while(1) loop
(main.c:101-111), starting from counter value p with the framebuffer at
byte offset base: p++ then sprintf of the new value, UG_SetForecolor
(C_RED), UG_PutString(48, 64, buf), cache_flush(lcdfb,
lcdfb+320*480/2), then 500 inner iterations of usb_poll and tud_task. -/
def loopIterEvents (p : Int) (base : Nat) : List Event :=
  Event.setForecolorRed ::
  Event.putString 48 64 (toString (p + 1)) ::
  Event.flushReq base (base + 320 * 480 / 2) ::
  pollEvents 500

/-- Counter value after one outer iteration of the diagnostic loop
starting from p (the p++ at main.c:102). -/
def loopIterCounter (p : Int) : Int := p + 1

theorem pollEvents_filter_flush (n : Nat) :
    (pollEvents n).filter isFlushReq = [] := by
  induction n with
  | zero => rfl
  | succ k ih => simp [pollEvents, List.filter, isFlushReq, ih]

theorem pollEvents_filter_put (n : Nat) :
    (pollEvents n).filter isPutString = [] := by
  induction n with
  | zero => rfl
  | succ k ih => simp [pollEvents, List.filter, isPutString, ih]

theorem pollEvents_filter_service (n : Nat) :
    (pollEvents n).filter isService = pollEvents n := by
  induction n with
  | zero => rfl
  | succ k ih => simp [pollEvents, List.filter, isService, ih]

theorem pollEvents_eq_join_replicate (n : Nat) :
    pollEvents n = (List.replicate n [Event.usbPoll, Event.tudTask]).flatten := by
  induction n with
  | zero => rfl
  | succ k ih => simp [pollEvents, List.replicate_succ, ih]

theorem pollEvents_length (n : Nat) : (pollEvents n).length = 2 * n := by
  induction n with
  | zero => rfl
  | succ k ih =>
    simp [pollEvents, ih]
    omega

/-- Claim C7: in the handoff, after the loader returns entry point la
and highest used address m, the heap-configuration collaborator is
called with exactly m, that call happens strictly before the single
entry-point invocation, and the entry point is invoked with argc = 0
and a NULL argv. -/
theorem C7_handoff_heap_then_entry (la m : Nat) :
    (handoffEvents la m).filter isCallEntry = [Event.callEntry la 0 true] ∧
    (handoffEvents la m).filter isSetHeapStart = [Event.setHeapStart m] ∧
    Event.setHeapStart m ∈ (handoffEvents la m).takeWhile (fun e => ! isCallEntry e) := by
  refine ⟨rfl, rfl, ?_⟩
  simp [handoffEvents, isCallEntry, List.takeWhile]

/-- Claim C1 (counterexample): for the concrete loader result with
entry address 4096 and highest used address 8192, the handoff trace
invokes the entry point but contains no cache-flush request at all, so
no flush covering the loaded region precedes the jump. -/
theorem C1_counterexample :
    (handoffEvents 4096 8192).filter isFlushReq = [] ∧
    (handoffEvents 4096 8192).filter isCallEntry = [Event.callEntry 4096 0 true] :=
  ⟨rfl, rfl⟩

/-- Claim C1 (amended): after the loader returns entry address la and
highest used address m, the handoff calls the heap-configuration
collaborator with exactly m before the single entry-point invocation,
but requests no cache flush anywhere between the loader's return and
the jump: the entry point is invoked without any preceding flush of the
loaded region by the handoff itself. -/
theorem C1_amended_no_flush_in_handoff (la m : Nat) :
    (handoffEvents la m).filter isCallEntry = [Event.callEntry la 0 true] ∧
    Event.setHeapStart m ∈ (handoffEvents la m).takeWhile (fun e => ! isCallEntry e) ∧
    (handoffEvents la m).filter isFlushReq = [] := by
  refine ⟨rfl, ?_, rfl⟩
  simp [handoffEvents, isCallEntry, List.takeWhile]

/-- Claim C5 (counterexample): with the framebuffer at offset 0 and
counter 0, the outer iteration's only cache-flush request covers bytes
[0, 320*480/2) = [0, 76800), and 76800 is less than fbSize = 320*512/2
= 81920, so the request does not cover the full framebuffer
allocation. -/
theorem C5_counterexample :
    (loopIterEvents 0 0).filter isFlushReq = [Event.flushReq 0 76800] ∧
    76800 < fbSize := by
  constructor
  · simp [loopIterEvents, List.filter_cons, isFlushReq, pollEvents_filter_flush]
  · norm_num [fbSize]

/-- Claim C5 (amended): every outer iteration of the diagnostic loop
requests exactly one cache flush, over the region of 320*480/2 = 76800
bytes from the framebuffer base (the display width 480 is used in the
extent, not the row stride 512), which covers strictly less than the
full fbSize = 320*512/2 bytes of the allocation. -/
theorem C5_amended_flush_region (p : Int) (base : Nat) :
    (loopIterEvents p base).filter isFlushReq
      = [Event.flushReq base (base + 320 * 480 / 2)] ∧
    320 * 480 / 2 < fbSize := by
  constructor
  · simp [loopIterEvents, List.filter_cons, isFlushReq, pollEvents_filter_flush]
  · norm_num [fbSize]

/-- Claim C9: an outer iteration of the diagnostic loop starting at
counter p increments the counter to exactly p + 1, renders exactly one
string, the decimal representation of p + 1, at screen position
(48, 64), and performs exactly 500 inner iterations of two back-to-back
transport-service calls: its service events are 500 replicated
[usb_poll, tud_task] blocks, 2 * 500 = 1000 calls in every iteration
regardless of p. -/
theorem C9_loop_iteration (p : Int) (base : Nat) :
    loopIterCounter p = p + 1 ∧
    (loopIterEvents p base).filter isPutString
      = [Event.putString 48 64 (toString (p + 1))] ∧
    (loopIterEvents p base).filter isService
      = (List.replicate 500 [Event.usbPoll, Event.tudTask]).flatten ∧
    ((loopIterEvents p base).filter isService).length = 2 * 500 := by
  refine ⟨rfl, ?_, ?_, ?_⟩
  · simp [loopIterEvents, List.filter_cons, isPutString, pollEvents_filter_put]
  · have h : (loopIterEvents p base).filter isService = pollEvents 500 := by
      simp [loopIterEvents, List.filter_cons, isService, pollEvents_filter_service]
    rw [h, pollEvents_eq_join_replicate]
  · simp [loopIterEvents, List.filter_cons, isService, pollEvents_filter_service,
      pollEvents_length]
